import Mathlib

/-!
Shallow embedding of the Maitrix faucet bot (src/faucet_claim.py and
src/scheduler.py).  Network and database behaviour is passed in explicitly
as environment data; the Lean functions mirror the Python control flow.
-/

namespace Maitrix

/-- Mirrors the `ClaimResult` dataclass of src/faucet_claim.py. -/
structure ClaimResult where
  address : String
  success : Bool
  tx_hash : Option String := none
  error : Option String := none
  gas_used : Option Nat := none
deriving DecidableEq

/-- Running counters of `FaucetClaimer.process_claims`
(`total_processed`, `total_successful`, `total_failed`). -/
structure RunStats where
  processed : Nat
  succeeded : Nat
  failed : Nat
deriving DecidableEq

/-- One wallet row from the `wallets` table
(`SELECT id, address, private_key FROM wallets ORDER BY id`). -/
structure Wallet where
  id : Nat
  address : String
  private_key : String
deriving DecidableEq

/-- Behaviour of the network during `sign_and_send_transaction` for one
account: either signing or `send_raw_transaction` raises before a hash is
obtained (`sendError`), or a hash is obtained and the receipt wait returns a
receipt with a status and gas used (`receipt`), raises `TimeExhausted`
(`timeout`), or raises some other exception (`waitError`). -/
inductive SendOutcome where
  | sendError (message : String)
  | receipt (tx_hash_hex : String) (status : Nat) (gasUsed : Nat)
  | timeout (tx_hash_hex : String)
  | waitError (tx_hash_hex : String) (message : String)
deriving DecidableEq

/-- The transaction dict built by `build_claim_transaction`. -/
structure Transaction where
  fromAddr : String
  nonce : Nat
  gas : Nat
  gasPrice : Nat
  chainId : Nat
deriving DecidableEq

instance {ε α : Type} [DecidableEq ε] [DecidableEq α] : DecidableEq (Except ε α) := fun x y =>
  match x, y with
  | .ok a, .ok b =>
    if h : a = b then .isTrue (by rw [h]) else .isFalse (by intro hc; cases hc; exact h rfl)
  | .error a, .error b =>
    if h : a = b then .isTrue (by rw [h]) else .isFalse (by intro hc; cases hc; exact h rfl)
  | .ok _, .error _ => .isFalse (by intro hc; cases hc)
  | .error _, .ok _ => .isFalse (by intro hc; cases hc)

/-- Environment seen by `process_wallet_claim` for one account: the result of
the RPC nonce query, whether `build_transaction` raises (beyond the missing
contract check, which is explicit), and the network behaviour of the
sign/send/receipt phase. -/
structure WalletEnv where
  nonce_lookup : Except String Nat
  build_raises : Option String
  send_outcome : SendOutcome
deriving DecidableEq

/-- Mirrors `FaucetClaimer.get_nonce` (src/faucet_claim.py lines 145-151):
an RPC failure is logged and mapped to nonce 0 instead of propagating. -/
def get_nonce (lookup : Except String Nat) : Nat :=
  match lookup with
  | .ok n => n
  | .error _ => 0

/-- Mirrors `FaucetClaimer.build_claim_transaction` (lines 153-167): raises if
no contract is initialized, otherwise builds the transaction dict; any
exception raised by the web3 encoding itself is the `build_raises` part of the
environment. -/
def build_claim_transaction (contract : Option Unit) (gas_limit gas_price_wei chain_id : Nat)
    (build_raises : Option String) (wallet_address : String) (nonce : Nat) :
    Except String Transaction :=
  match contract with
  | none => .error "Contract not initialized"
  | some _ =>
    match build_raises with
    | some e => .error e
    | none =>
      .ok { fromAddr := wallet_address, nonce := nonce, gas := gas_limit,
            gasPrice := gas_price_wei, chainId := chain_id }

/-- Mirrors `FaucetClaimer.sign_and_send_transaction` (lines 169-214).
The inner `try` catches only `TimeExhausted`, returning `success=True` with
the hash; a receipt with status 1 is a success with gas used; any other
status is a failure carrying the hash; any other exception (during signing,
sending, or the receipt wait) is caught by the outer `except` and returns a
failure without a hash. -/
def sign_and_send_transaction (transaction : Transaction) (outcome : SendOutcome) : ClaimResult :=
  match outcome with
  | .sendError e =>
    { address := transaction.fromAddr, success := false, error := some e }
  | .receipt txh status gasUsed =>
    if status = 1 then
      { address := transaction.fromAddr, success := true, tx_hash := some txh,
        gas_used := some gasUsed }
    else
      { address := transaction.fromAddr, success := false, tx_hash := some txh,
        error := some "Transaction failed (status: 0)" }
  | .timeout txh =>
    { address := transaction.fromAddr, success := true, tx_hash := some txh,
      error := some "Receipt timeout (transaction may still succeed)" }
  | .waitError _ e =>
    { address := transaction.fromAddr, success := false, error := some e }

/-- Mirrors `FaucetClaimer.process_wallet_claim` (lines 216-239): gets the
nonce, builds the transaction, signs and sends; any exception escaping those
steps is caught and turned into a failed `ClaimResult`. -/
def process_wallet_claim (contract : Option Unit) (gas_limit gas_price_wei chain_id : Nat)
    (address : String) (env : WalletEnv) : ClaimResult :=
  let nonce := get_nonce env.nonce_lookup
  match build_claim_transaction contract gas_limit gas_price_wei chain_id
      env.build_raises address nonce with
  | .error e =>
    { address := address, success := false,
      error := some ("Unexpected error processing " ++ address ++ ": " ++ e) }
  | .ok tx => sign_and_send_transaction tx env.send_outcome

/-- What `check_connection` (lines 107-126) observes from the node: not
connected, a successful chain-id/block query, or an exception. -/
inductive ConnProbe where
  | notConnected
  | healthy (chain_id latest_block : Nat)
  | queryError (message : String)
deriving DecidableEq

/-- Mirrors `FaucetClaimer.check_connection` (lines 107-126).  First
component: the returned bool (False when not connected or a query raises,
True otherwise).  Second component: whether the chain-id mismatch warning was
logged; a mismatch never makes the check fail. -/
def check_connection (expected_chain_id : Nat) (probe : ConnProbe) : Bool × Bool :=
  match probe with
  | .notConnected => (false, false)
  | .queryError _ => (false, false)
  | .healthy cid _ => (true, decide (cid ≠ expected_chain_id))

/-- The fetch loop of `FaucetClaimer.get_wallet_batches` (lines 128-143):
each `cursor.fetchmany(batch_size)` takes the next `batch_size` rows, and the
loop breaks at the first empty fetch.  `fuel` bounds the number of fetches;
`get_wallet_batches` supplies the row count, which always suffices. -/
def chunksFuel (batch_size : Nat) : Nat → List (Wallet × WalletEnv) →
    List (List (Wallet × WalletEnv))
  | _, [] => []
  | 0, _ :: _ => []
  | fuel + 1, w :: ws =>
    if batch_size = 0 then []
    else
      List.take batch_size (w :: ws) ::
        chunksFuel batch_size fuel (List.drop batch_size (w :: ws))

/-- Mirrors `FaucetClaimer.get_wallet_batches` (lines 128-143):
`cursor.fetchmany(batch_size)` repeatedly, stopping at the first empty fetch
(`fetchmany(0)` is empty at once, so batch size 0 yields no batches). -/
def get_wallet_batches (batch_size : Nat) (l : List (Wallet × WalletEnv)) :
    List (List (Wallet × WalletEnv)) :=
  chunksFuel batch_size l.length l

/-- The counter updates of the inner loop of `process_claims`
(lines 279-286): a successful result increments the success counters, any
other result increments the failure counters, and `total_processed` always
increments. -/
def classify (result : ClaimResult) (s : RunStats) : RunStats :=
  if result.success then
    { processed := s.processed + 1, succeeded := s.succeeded + 1, failed := s.failed }
  else
    { processed := s.processed + 1, succeeded := s.succeeded, failed := s.failed + 1 }

/-- The ceiling check of `process_claims` line 272:
`if max_wallets and total_processed >= max_wallets` — Python truthiness, so
`None` and `0` both disable the ceiling. -/
def stopAtMax (max_wallets : Option Nat) (total_processed : Nat) : Bool :=
  match max_wallets with
  | none => false
  | some m => decide (m ≠ 0) && decide (m ≤ total_processed)

/-- Models an external interruption of the batch loop — the
`KeyboardInterrupt` (cooperative cancellation) or fatal exception caught at
lines 308-311 — arriving once `k` accounts have completed, before the next
attempt starts.  `none` means the pass is never interrupted. -/
def interruptFires (interrupt_after : Option Nat) (total_processed : Nat) : Bool :=
  match interrupt_after with
  | none => false
  | some k => decide (k ≤ total_processed)

/-- The inner per-wallet loop of `process_claims` (lines 271-290) over one
fetched batch.  Returns the updated counters and whether the loop exited the
whole pass early (ceiling `return` at line 274, or an interruption). -/
def processBatch (contract : Option Unit) (gas_limit gas_price_wei chain_id : Nat)
    (max_wallets interrupt_after : Option Nat) :
    List (Wallet × WalletEnv) → RunStats → RunStats × Bool
  | [], s => (s, false)
  | (w, env) :: rest, s =>
    if interruptFires interrupt_after s.processed then (s, true)
    else if stopAtMax max_wallets s.processed then (s, true)
    else
      processBatch contract gas_limit gas_price_wei chain_id max_wallets interrupt_after rest
        (classify (process_wallet_claim contract gas_limit gas_price_wei chain_id
          w.address env) s)

/-- The outer batch loop of `process_claims` (lines 264-306): process each
fetched batch in turn, stopping the pass if the inner loop exited early. -/
def processBatches (contract : Option Unit) (gas_limit gas_price_wei chain_id : Nat)
    (max_wallets interrupt_after : Option Nat) :
    List (List (Wallet × WalletEnv)) → RunStats → RunStats
  | [], s => s
  | b :: bs, s =>
    match processBatch contract gas_limit gas_price_wei chain_id max_wallets
        interrupt_after b s with
    | (s1, true) => s1
    | (s1, false) =>
      processBatches contract gas_limit gas_price_wei chain_id max_wallets
        interrupt_after bs s1

/-- The final summary logged in the `finally` block of `process_claims`
(lines 312-321).  Line 319 computes `(total_successful/total_processed)*100`,
which raises `ZeroDivisionError` when nothing was processed, and line 321
divides by the elapsed wall time; either division aborts the summary, so the
summary only exists when both divisors are nonzero. -/
structure RunSummary where
  total_processed : Nat
  total_successful : Nat
  total_failed : Nat
  success_rate : ℚ
  average_rate : ℚ
deriving DecidableEq

/-- See `RunSummary`: `none` means the summary emission raised
`ZeroDivisionError` instead of printing the full summary. -/
def final_summary (s : RunStats) (total_time : ℚ) : Option RunSummary :=
  if s.processed = 0 then none
  else if total_time = 0 then none
  else
    some { total_processed := s.processed, total_successful := s.succeeded,
           total_failed := s.failed,
           success_rate := ((s.succeeded : ℚ) / (s.processed : ℚ)) * 100,
           average_rate := (s.processed : ℚ) / total_time }

/-- Mirrors `FaucetClaimer.process_claims` (lines 241-321): abort (returning
no statistics and no summary) when the connection check fails or no contract
is initialized; otherwise run the batch loops from zero counters and emit the
final statistics together with the summary the `finally` block manages to
produce.  `interrupt_after` models cancellation / a fatal mid-pass error;
`elapsed` is the measured wall time used by the summary. -/
def process_claims (expected_chain_id : Nat) (probe : ConnProbe) (contract : Option Unit)
    (gas_limit gas_price_wei chain_id batch_size : Nat)
    (max_wallets interrupt_after : Option Nat)
    (wallets : List (Wallet × WalletEnv)) (elapsed : ℚ) :
    Option (RunStats × Option RunSummary) :=
  if (check_connection expected_chain_id probe).1 = false then none
  else
    match contract with
    | none => none
    | some u =>
      let stats := processBatches (some u) gas_limit gas_price_wei chain_id
        max_wallets interrupt_after (get_wallet_batches batch_size wallets) ⟨0, 0, 0⟩
      some (stats, final_summary stats elapsed)

/-- In-memory scheduler tracking fields of `FaucetScheduler.__init__`
(src/scheduler.py lines 57-59): `run_count`, `last_run_time`,
`next_run_time`.  The scheduler object has no last-run-success attribute. -/
structure SchedState where
  run_count : Nat
  last_run_time : Option Nat
  next_run_time : Option Nat
deriving DecidableEq

/-- The JSON record written to `scheduler_stats.json` by `save_run_stats`
(lines 183-197).  Timestamps are abstracted to seconds since an epoch
(`datetime.isoformat` / `fromisoformat` round-trip exactly). -/
structure SchedulerStatsFile where
  run_count : Nat
  last_run_time : Option Nat
  next_run_time : Option Nat
  last_run_success : Bool
  schedule_interval_hours : Nat
deriving DecidableEq

/-- Mirrors `FaucetScheduler.calculate_next_run_time` (lines 86-94): with no
previous run, run now; otherwise last run time plus the configured interval
(`timedelta(hours=h)`, i.e. `h * 3600` seconds). -/
def calculate_next_run_time (now : Nat) (last_run_time : Option Nat)
    (schedule_interval_hours : Nat) : Nat :=
  match last_run_time with
  | none => now
  | some t => t + schedule_interval_hours * 3600

/-- Mirrors `FaucetScheduler.save_run_stats` (lines 183-197): serialize the
current tracking fields plus the pass success flag. -/
def save_run_stats (st : SchedState) (success : Bool) (schedule_interval_hours : Nat) :
    SchedulerStatsFile :=
  { run_count := st.run_count, last_run_time := st.last_run_time,
    next_run_time := st.next_run_time, last_run_success := success,
    schedule_interval_hours := schedule_interval_hours }

/-- Mirrors `FaucetScheduler.load_run_stats` (lines 199-219): with no file
(or a read error) nothing changes; otherwise `run_count` is always assigned
(`stats.get("run_count", 0)`) and the two timestamps only when truthy in the
file.  No field of the file record beyond those three is read back. -/
def load_run_stats (st : SchedState) (file : Option SchedulerStatsFile) : SchedState :=
  match file with
  | none => st
  | some stats =>
    { run_count := stats.run_count,
      last_run_time :=
        match stats.last_run_time with
        | some t => some t
        | none => st.last_run_time,
      next_run_time :=
        match stats.next_run_time with
        | some t => some t
        | none => st.next_run_time }

/-- The `Running` step of `FaucetScheduler.run_scheduler` (lines 260-273):
increment the run counter, record the start of the pass as the last run time,
run the pass (its success flag and its end time `end_time` are inputs here),
compute the next run time, and persist the stats file. -/
def scheduler_run_step (st : SchedState) (start_time end_time : Nat) (success : Bool)
    (schedule_interval_hours : Nat) : SchedState × SchedulerStatsFile :=
  let st1 : SchedState :=
    { run_count := st.run_count + 1,
      last_run_time := some start_time,
      next_run_time :=
        some (calculate_next_run_time end_time (some start_time) schedule_interval_hours) }
  (st1, save_run_stats st1 success schedule_interval_hours)

/-! ### Helper lemmas -/

theorem classify_processed (r : ClaimResult) (s : RunStats) :
    (classify r s).processed = s.processed + 1 := by
  unfold classify; split <;> rfl

theorem classify_inv (r : ClaimResult) (s : RunStats)
    (h : s.processed = s.succeeded + s.failed) :
    (classify r s).processed = (classify r s).succeeded + (classify r s).failed := by
  unfold classify; split <;> simp <;> omega

theorem processBatch_inv (c : Option Unit) (gl gp cid : Nat) (mw ia : Option Nat)
    (l : List (Wallet × WalletEnv)) (s : RunStats)
    (h : s.processed = s.succeeded + s.failed) :
    ((processBatch c gl gp cid mw ia l s).1).processed
      = ((processBatch c gl gp cid mw ia l s).1).succeeded
        + ((processBatch c gl gp cid mw ia l s).1).failed := by
  induction l generalizing s with
  | nil => exact h
  | cons we rest ih =>
    obtain ⟨w, env⟩ := we
    rw [processBatch]
    split
    · exact h
    · split
      · exact h
      · exact ih _ (classify_inv _ _ h)

theorem processBatches_inv (c : Option Unit) (gl gp cid : Nat) (mw ia : Option Nat)
    (bs : List (List (Wallet × WalletEnv))) (s : RunStats)
    (h : s.processed = s.succeeded + s.failed) :
    (processBatches c gl gp cid mw ia bs s).processed
      = (processBatches c gl gp cid mw ia bs s).succeeded
        + (processBatches c gl gp cid mw ia bs s).failed := by
  induction bs generalizing s with
  | nil => exact h
  | cons b rest ih =>
    rw [processBatches]
    rcases hb : processBatch c gl gp cid mw ia b s with ⟨s1, stopped⟩
    have h1 : s1.processed = s1.succeeded + s1.failed := by
      have := processBatch_inv c gl gp cid mw ia b s h
      rw [hb] at this; exact this
    cases stopped
    · exact ih _ h1
    · exact h1

theorem stopAtMax_some_iff (m p : Nat) : stopAtMax (some m) p = true ↔ (m ≠ 0 ∧ m ≤ p) := by
  simp [stopAtMax]

theorem stopAtMax_some_false (m p : Nat) (hm : m ≠ 0) (h : stopAtMax (some m) p = false) :
    p < m := by
  by_contra hc
  have ht : stopAtMax (some m) p = true := (stopAtMax_some_iff m p).mpr ⟨hm, by omega⟩
  rw [ht] at h
  cases h

theorem processBatch_cons_go (c : Option Unit) (gl gp cid : Nat) (mw ia : Option Nat)
    (w : Wallet) (env : WalletEnv) (rest : List (Wallet × WalletEnv)) (s : RunStats)
    (h1 : interruptFires ia s.processed = false) (h2 : stopAtMax mw s.processed = false) :
    processBatch c gl gp cid mw ia ((w, env) :: rest) s
      = processBatch c gl gp cid mw ia rest
          (classify (process_wallet_claim c gl gp cid w.address env) s) := by
  rw [processBatch, h1, h2]
  rfl

theorem processBatch_cons_stop (c : Option Unit) (gl gp cid : Nat) (mw ia : Option Nat)
    (w : Wallet) (env : WalletEnv) (rest : List (Wallet × WalletEnv)) (s : RunStats)
    (h1 : interruptFires ia s.processed = false) (h2 : stopAtMax mw s.processed = true) :
    processBatch c gl gp cid mw ia ((w, env) :: rest) s = (s, true) := by
  rw [processBatch, h1, h2]
  rfl

theorem chunksFuel_sum (batch_size : Nat) (hbs : 0 < batch_size) :
    ∀ (fuel : Nat) (l : List (Wallet × WalletEnv)), l.length ≤ fuel →
    ((chunksFuel batch_size fuel l).map List.length).sum = l.length := by
  intro fuel
  induction fuel with
  | zero =>
    intro l hl
    match l with
    | [] => rfl
    | w :: ws => simp at hl
  | succ fuel ih =>
    intro l hl
    match l with
    | [] => rfl
    | w :: ws =>
      rw [chunksFuel, if_neg (Nat.pos_iff_ne_zero.mp hbs)]
      simp only [List.map_cons, List.sum_cons]
      simp only [List.length_cons] at hl
      rw [ih ((w :: ws).drop batch_size) ?_]
      · simp only [List.length_take, List.length_drop, List.length_cons]
        omega
      · simp only [List.length_drop, List.length_cons]
        omega

theorem get_wallet_batches_sum (batch_size : Nat) (hbs : 0 < batch_size)
    (l : List (Wallet × WalletEnv)) :
    ((get_wallet_batches batch_size l).map List.length).sum = l.length :=
  chunksFuel_sum batch_size hbs l.length l (Nat.le_refl _)

theorem processBatch_nostop (c : Option Unit) (gl gp cid : Nat) (mw : Option Nat)
    (hmw : ∀ p, stopAtMax mw p = false) (l : List (Wallet × WalletEnv)) (s : RunStats) :
    ((processBatch c gl gp cid mw none l s).1).processed = s.processed + l.length
      ∧ (processBatch c gl gp cid mw none l s).2 = false := by
  induction l generalizing s with
  | nil => exact ⟨rfl, rfl⟩
  | cons we rest ih =>
    obtain ⟨w, env⟩ := we
    rw [processBatch_cons_go c gl gp cid mw none w env rest s rfl (hmw s.processed)]
    have := ih (classify (process_wallet_claim c gl gp cid w.address env) s)
    refine ⟨?_, this.2⟩
    rw [this.1, classify_processed]
    simp only [List.length_cons]
    omega

theorem processBatches_nostop (c : Option Unit) (gl gp cid : Nat) (mw : Option Nat)
    (hmw : ∀ p, stopAtMax mw p = false) (bs : List (List (Wallet × WalletEnv)))
    (s : RunStats) :
    (processBatches c gl gp cid mw none bs s).processed
      = s.processed + (bs.map List.length).sum := by
  induction bs generalizing s with
  | nil => rfl
  | cons b rest ih =>
    rw [processBatches]
    rcases hb : processBatch c gl gp cid mw none b s with ⟨s1, stopped⟩
    have h := processBatch_nostop c gl gp cid mw hmw b s
    rw [hb] at h
    obtain ⟨hp, hst⟩ := h
    cases stopped
    · rw [ih s1, hp]
      simp only [List.map_cons, List.sum_cons]
      omega
    · exact absurd hst (by simp)

theorem processBatch_ceiling (c : Option Unit) (gl gp cid m : Nat) (hm : 0 < m)
    (l : List (Wallet × WalletEnv)) (s : RunStats) (hs : s.processed ≤ m) :
    ((processBatch c gl gp cid (some m) none l s).1).processed
        = min m (s.processed + l.length)
      ∧ ((processBatch c gl gp cid (some m) none l s).2 = true
        ↔ m < s.processed + l.length) := by
  induction l generalizing s with
  | nil =>
    refine ⟨?_, ?_⟩
    · show s.processed = min m (s.processed + List.length [])
      simp only [List.length_nil, Nat.add_zero]
      omega
    · show (false = true) ↔ m < s.processed + List.length []
      simp only [List.length_nil, Nat.add_zero]
      constructor
      · intro hc; cases hc
      · intro hc; omega
  | cons we rest ih =>
    obtain ⟨w, env⟩ := we
    by_cases hstop : m ≤ s.processed
    · rw [processBatch_cons_stop c gl gp cid (some m) none w env rest s rfl
        ((stopAtMax_some_iff m s.processed).mpr ⟨Nat.pos_iff_ne_zero.mp hm, hstop⟩)]
      refine ⟨?_, ?_⟩
      · show s.processed = min m (s.processed + ((w, env) :: rest).length)
        simp only [List.length_cons]
        omega
      · show (true = true) ↔ m < s.processed + ((w, env) :: rest).length
        simp only [List.length_cons]
        constructor
        · intro _; omega
        · intro _; trivial
    · have hfalse : stopAtMax (some m) s.processed = false := by
        cases hsm : stopAtMax (some m) s.processed
        · rfl
        · exact absurd ((stopAtMax_some_iff m s.processed).mp hsm).2 hstop
      rw [processBatch_cons_go c gl gp cid (some m) none w env rest s rfl hfalse]
      have hs1 : (classify (process_wallet_claim c gl gp cid w.address env) s).processed
          = s.processed + 1 := classify_processed _ _
      have hih := ih (classify (process_wallet_claim c gl gp cid w.address env) s)
        (by rw [hs1]; omega)
      rw [hs1] at hih
      obtain ⟨h1, h2⟩ := hih
      refine ⟨?_, ?_⟩
      · rw [h1]
        simp only [List.length_cons]
        omega
      · rw [h2]
        simp only [List.length_cons]
        omega

theorem processBatches_ceiling (c : Option Unit) (gl gp cid m : Nat) (hm : 0 < m)
    (bs : List (List (Wallet × WalletEnv))) (s : RunStats) (hs : s.processed ≤ m) :
    (processBatches c gl gp cid (some m) none bs s).processed
      = min m (s.processed + (bs.map List.length).sum) := by
  induction bs generalizing s with
  | nil =>
    simp only [processBatches, List.map_nil, List.sum_nil, Nat.add_zero]
    omega
  | cons b rest ih =>
    rw [processBatches]
    rcases hb : processBatch c gl gp cid (some m) none b s with ⟨s1, stopped⟩
    have h := processBatch_ceiling c gl gp cid m hm b s hs
    rw [hb] at h
    obtain ⟨hp, hflag⟩ := h
    simp only [List.map_cons, List.sum_cons]
    cases stopped
    · have hnostop : ¬ m < s.processed + b.length := by
        intro hc
        have := hflag.mpr hc
        cases this
      have hle : s.processed + b.length ≤ m := by omega
      have hs1 : s1.processed = s.processed + b.length := by
        simp only at hp; omega
      rw [ih s1 (by omega), hs1]
      omega
    · have hlt : m < s.processed + b.length := hflag.mp rfl
      have : s1.processed = m := by simp only at hp; omega
      rw [this]
      omega

theorem process_claims_healthy (exp cid0 blk gl gp cid bs : Nat) (mw ia : Option Nat)
    (wallets : List (Wallet × WalletEnv)) (elapsed : ℚ) :
    process_claims exp (.healthy cid0 blk) (some ()) gl gp cid bs mw ia wallets elapsed
      = some
        (processBatches (some ()) gl gp cid mw ia (get_wallet_batches bs wallets) ⟨0, 0, 0⟩,
         final_summary
           (processBatches (some ()) gl gp cid mw ia (get_wallet_batches bs wallets) ⟨0, 0, 0⟩)
           elapsed) := by
  simp [process_claims, check_connection]

/-! ### Claim theorems -/

/-- C1: for every account whose broadcast returns a transaction hash but whose
receipt wait times out (`TimeExhausted`), the executor's `ClaimResult` carries
that hash with `success = True`, so the run statistics count it as a success
(success counter incremented, failure counter untouched); the same holds for
the full per-wallet claim path. -/
theorem receipt_timeout_counts_success (tx : Transaction) (txh : String) (s : RunStats)
    (gl gp cid : Nat) (addr : String) (nl : Except String Nat) :
    (sign_and_send_transaction tx (.timeout txh)).tx_hash = some txh
    ∧ (sign_and_send_transaction tx (.timeout txh)).success = true
    ∧ classify (sign_and_send_transaction tx (.timeout txh)) s
        = { processed := s.processed + 1, succeeded := s.succeeded + 1, failed := s.failed }
    ∧ (process_wallet_claim (some ()) gl gp cid addr ⟨nl, none, .timeout txh⟩).tx_hash
        = some txh
    ∧ (process_wallet_claim (some ()) gl gp cid addr ⟨nl, none, .timeout txh⟩).success
        = true := by
  exact ⟨rfl, rfl, rfl, rfl, rfl⟩

/-- C4: when the RPC nonce query fails, `get_nonce` returns 0 instead of
propagating the error, and the claim attempt proceeds: the transaction handed
to signing and sending carries nonce 0. -/
theorem nonce_failure_defaults_zero (e : String) (gl gp cid : Nat) (addr : String)
    (o : SendOutcome) :
    get_nonce (.error e) = 0
    ∧ process_wallet_claim (some ()) gl gp cid addr ⟨.error e, none, o⟩
        = sign_and_send_transaction
            { fromAddr := addr, nonce := 0, gas := gl, gasPrice := gp, chainId := cid } o := by
  exact ⟨rfl, rfl⟩

/-- C5: with a 24-hour interval, the next-run time computed after a pass that
started at `start_time` is exactly `start_time + 24` hours, both in memory and
in the persisted stats file, and the whole step is independent of the time
`e1`/`e2` at which the pass ended (how long the pass took). -/
theorem next_run_exactly_interval (st : SchedState) (start_time e1 e2 : Nat) (success : Bool) :
    (scheduler_run_step st start_time e1 success 24).1.next_run_time
        = some (start_time + 24 * 3600)
    ∧ (scheduler_run_step st start_time e1 success 24).2.next_run_time
        = some (start_time + 24 * 3600)
    ∧ (scheduler_run_step st start_time e1 success 24).1.last_run_time = some start_time
    ∧ scheduler_run_step st start_time e1 success 24
        = scheduler_run_step st start_time e2 success 24 := by
  exact ⟨rfl, rfl, rfl, rfl⟩

/-- C6 counterexample: two persisted stats files that differ only in the
`last_run_success` flag load back to identical scheduler states (starting from
the fresh state of `__init__`), so persisting and then loading cannot
reproduce the success flag: the claimed four-field round-trip fails. -/
theorem save_load_drops_success_flag :
    load_run_stats ⟨0, none, none⟩ (some (save_run_stats ⟨3, some 100, some 200⟩ true 24))
      = load_run_stats ⟨0, none, none⟩ (some (save_run_stats ⟨3, some 100, some 200⟩ false 24))
    ∧ (save_run_stats ⟨3, some 100, some 200⟩ true 24).last_run_success
        ≠ (save_run_stats ⟨3, some 100, some 200⟩ false 24).last_run_success := by
  exact ⟨rfl, by decide⟩

/-- C6 amended: persisting then loading (into the fresh state of `__init__`)
reproduces an equal run count, last-run timestamp and next-run timestamp; the
last-run success flag is written to the file but `load_run_stats` never reads
it back. -/
theorem save_load_roundtrip_three_fields (st : SchedState) (success : Bool)
    (interval_hours : Nat) :
    load_run_stats ⟨0, none, none⟩ (some (save_run_stats st success interval_hours)) = st
    ∧ (save_run_stats st success interval_hours).last_run_success = success := by
  refine ⟨?_, rfl⟩
  obtain ⟨rc, lrt, nrt⟩ := st
  cases lrt <;> cases nrt <;> rfl

/-- C9: a chain-id mismatch in the health check only sets the warning flag —
the check still reports success and a pass with that connection proceeds (is
not aborted); the check fails exactly when the endpoint is unreachable or the
chain-id/block query raises. -/
theorem chain_id_mismatch_warns_only (exp cid blk : Nat) (e : String) :
    (check_connection exp (.healthy cid blk)).1 = true
    ∧ ((check_connection exp (.healthy cid blk)).2 = true ↔ cid ≠ exp)
    ∧ (check_connection exp .notConnected).1 = false
    ∧ (check_connection exp (.queryError e)).1 = false
    ∧ (∀ probe, (check_connection exp probe).1 = false
        ↔ (probe = .notConnected ∨ ∃ msg, probe = .queryError msg))
    ∧ (∀ gl gp cc bs : Nat, ∀ mw ia : Option Nat,
        ∀ wallets : List (Wallet × WalletEnv), ∀ elapsed : ℚ,
        process_claims exp (.healthy cid blk) (some ()) gl gp cc bs mw ia wallets elapsed
          ≠ none) := by
  refine ⟨rfl, ?_, rfl, rfl, ?_, ?_⟩
  · simp [check_connection]
  · intro probe
    cases probe <;> simp [check_connection]
  · intro gl gp cc bs mw ia wallets elapsed
    rw [process_claims_healthy]
    simp

/-- C9 witness: observed chain id 6 against expected chain id 5 — the check
succeeds, the warning fires, and a concrete pass is not aborted. -/
theorem chain_id_mismatch_warns_only_witness :
    (check_connection 5 (.healthy 6 0)).1 = true
    ∧ (check_connection 5 (.healthy 6 0)).2 = true
    ∧ process_claims 5 (.healthy 6 0) (some ()) 0 0 0 1 none none [] 1 ≠ none :=
  ⟨(chain_id_mismatch_warns_only 5 6 0 "e").1,
   (chain_id_mismatch_warns_only 5 6 0 "e").2.1.mpr (by decide),
   (chain_id_mismatch_warns_only 5 6 0 "e").2.2.2.2.2 0 0 0 1 none none [] 1⟩

/-- C2: for every positive maximum-processed-count `m` with at least `m`
accounts available, a pass attempts exactly `m` accounts; and whenever a page
holds more than `m` accounts the inner loop exits the pass early (mid-page),
because the ceiling is checked before each attempt. -/
theorem max_wallets_exact (exp blk gl gp cid bs m : Nat) (elapsed : ℚ)
    (wallets : List (Wallet × WalletEnv))
    (hbs : 0 < bs) (hm : 0 < m) (hlen : m ≤ wallets.length) :
    (∃ stats summ,
      process_claims exp (.healthy exp blk) (some ()) gl gp cid bs (some m) none
          wallets elapsed = some (stats, summ)
      ∧ stats.processed = m)
    ∧ (∀ page : List (Wallet × WalletEnv), m < page.length →
        (processBatch (some ()) gl gp cid (some m) none page ⟨0, 0, 0⟩).2 = true) := by
  constructor
  · refine ⟨_, _, process_claims_healthy exp exp blk gl gp cid bs (some m) none
      wallets elapsed, ?_⟩
    have h1 := processBatches_ceiling (some ()) gl gp cid m hm
      (get_wallet_batches bs wallets) ⟨0, 0, 0⟩ (Nat.zero_le m)
    rw [h1, get_wallet_batches_sum bs hbs wallets]
    show min m (0 + wallets.length) = m
    omega
  · intro page hp
    have h := processBatch_ceiling (some ()) gl gp cid m hm page ⟨0, 0, 0⟩ (Nat.zero_le m)
    exact h.2.mpr (by simpa using hp)

/-- C2 witness: maximum-count 2, page size 5, 5 available accounts: exactly 2
accounts are attempted. -/
theorem max_wallets_exact_witness :
    (0:Nat) < 5 ∧ (0:Nat) < 2
    ∧ (∃ stats summ,
        process_claims 1 (.healthy 1 0) (some ()) 0 0 0 5 (some 2) none
          [⟨⟨1, "a", "k"⟩, ⟨.ok 0, none, .timeout "h"⟩⟩,
           ⟨⟨2, "b", "k"⟩, ⟨.ok 0, none, .timeout "h"⟩⟩,
           ⟨⟨3, "c", "k"⟩, ⟨.ok 0, none, .timeout "h"⟩⟩,
           ⟨⟨4, "d", "k"⟩, ⟨.ok 0, none, .timeout "h"⟩⟩,
           ⟨⟨5, "e", "k"⟩, ⟨.ok 0, none, .timeout "h"⟩⟩] 1 = some (stats, summ)
        ∧ stats.processed = 2) :=
  ⟨by decide, by decide,
    (max_wallets_exact 1 0 0 0 0 5 2 1
      [⟨⟨1, "a", "k"⟩, ⟨.ok 0, none, .timeout "h"⟩⟩,
       ⟨⟨2, "b", "k"⟩, ⟨.ok 0, none, .timeout "h"⟩⟩,
       ⟨⟨3, "c", "k"⟩, ⟨.ok 0, none, .timeout "h"⟩⟩,
       ⟨⟨4, "d", "k"⟩, ⟨.ok 0, none, .timeout "h"⟩⟩,
       ⟨⟨5, "e", "k"⟩, ⟨.ok 0, none, .timeout "h"⟩⟩]
      (by decide) (by decide) (by decide)).1⟩

/-- C3: processed = succeeded + failed is established at the zero counters,
preserved by every single account's outcome (which increments the success
counter exactly when the result is successful — a status-1 receipt or a
receipt timeout — otherwise the failure counter, and always the processed
counter), holds after any partial batch and any sequence of batches, and
holds for the statistics a completed pass reports. -/
theorem counters_invariant :
    (∀ r s, (classify r s).processed = s.processed + 1
      ∧ (r.success = true → (classify r s).succeeded = s.succeeded + 1
          ∧ (classify r s).failed = s.failed)
      ∧ (r.success = false → (classify r s).succeeded = s.succeeded
          ∧ (classify r s).failed = s.failed + 1))
    ∧ (∀ gl gp cid addr env,
        (process_wallet_claim (some ()) gl gp cid addr env).success = true
          ↔ (env.build_raises = none
              ∧ ((∃ h g, env.send_outcome = .receipt h 1 g)
                  ∨ (∃ h, env.send_outcome = .timeout h))))
    ∧ (∀ c gl gp cid mw ia l s, s.processed = s.succeeded + s.failed →
        ((processBatch c gl gp cid mw ia l s).1).processed
          = ((processBatch c gl gp cid mw ia l s).1).succeeded
            + ((processBatch c gl gp cid mw ia l s).1).failed)
    ∧ (∀ c gl gp cid mw ia bs s, s.processed = s.succeeded + s.failed →
        (processBatches c gl gp cid mw ia bs s).processed
          = (processBatches c gl gp cid mw ia bs s).succeeded
            + (processBatches c gl gp cid mw ia bs s).failed)
    ∧ (∀ exp probe c gl gp cid bs mw ia wallets elapsed stats summ,
        process_claims exp probe c gl gp cid bs mw ia wallets elapsed
            = some (stats, summ) →
        stats.processed = stats.succeeded + stats.failed) := by
  refine ⟨?_, ?_, ?_, ?_, ?_⟩
  · intro r s
    cases hr : r.success <;> simp [classify, hr]
  · intro gl gp cid addr env
    obtain ⟨nl, br, so⟩ := env
    cases br with
    | none =>
      cases so with
      | sendError e =>
        simp [process_wallet_claim, build_claim_transaction, sign_and_send_transaction]
      | receipt h st g =>
        by_cases hst : st = 1
        · subst hst
          simp [process_wallet_claim, build_claim_transaction, sign_and_send_transaction]
        · simp [process_wallet_claim, build_claim_transaction, sign_and_send_transaction, hst]
      | timeout h =>
        simp [process_wallet_claim, build_claim_transaction, sign_and_send_transaction]
      | waitError h e =>
        simp [process_wallet_claim, build_claim_transaction, sign_and_send_transaction]
    | some e =>
      simp [process_wallet_claim, build_claim_transaction, sign_and_send_transaction]
  · intro c gl gp cid mw ia l s h
    exact processBatch_inv c gl gp cid mw ia l s h
  · intro c gl gp cid mw ia bs s h
    exact processBatches_inv c gl gp cid mw ia bs s h
  · intro exp probe c gl gp cid bs mw ia wallets elapsed stats summ heq
    unfold process_claims at heq
    by_cases hc : (check_connection exp probe).1 = false
    · rw [if_pos hc] at heq; cases heq
    · rw [if_neg hc] at heq
      cases c with
      | none => cases heq
      | some u =>
        injection heq with hpair
        have h1 : stats
            = processBatches (some u) gl gp cid mw ia (get_wallet_batches bs wallets)
                ⟨0, 0, 0⟩ := (congrArg Prod.fst hpair).symm
        rw [h1]
        exact processBatches_inv _ _ _ _ _ _ _ _ rfl

/-- C3 witness: the invariant instantiated on a concrete partial batch, a
concrete completed pass, and a concrete successful outcome. -/
theorem counters_invariant_witness :
    (((processBatch (some ()) 0 0 0 none none
        [⟨⟨1, "a", "k"⟩, ⟨.ok 0, none, .sendError "boom"⟩⟩] ⟨2, 1, 1⟩).1).processed
      = ((processBatch (some ()) 0 0 0 none none
          [⟨⟨1, "a", "k"⟩, ⟨.ok 0, none, .sendError "boom"⟩⟩] ⟨2, 1, 1⟩).1).succeeded
        + ((processBatch (some ()) 0 0 0 none none
          [⟨⟨1, "a", "k"⟩, ⟨.ok 0, none, .sendError "boom"⟩⟩] ⟨2, 1, 1⟩).1).failed)
    ∧ ((⟨0, 0, 0⟩ : RunStats).processed
        = (⟨0, 0, 0⟩ : RunStats).succeeded + (⟨0, 0, 0⟩ : RunStats).failed)
    ∧ (classify ⟨"a", true, none, none, none⟩ ⟨2, 1, 1⟩).succeeded = 1 + 1 :=
  ⟨counters_invariant.2.2.1 (some ()) 0 0 0 none none
      [⟨⟨1, "a", "k"⟩, ⟨.ok 0, none, .sendError "boom"⟩⟩] ⟨2, 1, 1⟩ (by decide),
   counters_invariant.2.2.2.2 1 (.healthy 1 0) (some ()) 0 0 0 1 none none [] 1
      ⟨0, 0, 0⟩ none rfl,
   ((counters_invariant.1 ⟨"a", true, none, none, none⟩ ⟨2, 1, 1⟩).2.1 rfl).1⟩

/-- C7: a pass aborts (returns without statistics or summary) exactly when
the connection check fails or no contract is configured; with a working
connection and a contract, every per-account environment — broadcast errors,
reverts, unexpected exceptions alike — is folded into a result, and with no
ceiling and no interruption every account in the store is attempted. -/
theorem pass_abort_iff (exp : Nat) (probe : ConnProbe) (contract : Option Unit)
    (gl gp cid bs : Nat) (mw ia : Option Nat) (wallets : List (Wallet × WalletEnv))
    (elapsed : ℚ) :
    (process_claims exp probe contract gl gp cid bs mw ia wallets elapsed = none
      ↔ ((check_connection exp probe).1 = false ∨ contract = none))
    ∧ ((check_connection exp probe).1 = true → contract = some () → 0 < bs →
        ∃ stats summ,
          process_claims exp probe contract gl gp cid bs none none wallets elapsed
            = some (stats, summ)
          ∧ stats.processed = wallets.length) := by
  constructor
  · by_cases hc : (check_connection exp probe).1 = false
    · simp [process_claims, hc]
    · cases contract with
      | none => simp [process_claims, hc]
      | some u => simp [process_claims, hc]
  · intro hc hcon hbs
    subst hcon
    cases probe with
    | notConnected => simp [check_connection] at hc
    | queryError e => simp [check_connection] at hc
    | healthy c0 b0 =>
      refine ⟨_, _, process_claims_healthy exp c0 b0 gl gp cid bs none none
        wallets elapsed, ?_⟩
      have h1 := processBatches_nostop (some ()) gl gp cid none (fun p => rfl)
        (get_wallet_batches bs wallets) ⟨0, 0, 0⟩
      rw [h1, get_wallet_batches_sum bs hbs wallets]
      show 0 + wallets.length = wallets.length
      omega

/-- C7 witness: with a healthy connection and a contract, a pass over one
account whose broadcast raises still records the account and completes. -/
theorem pass_abort_iff_witness :
    (check_connection 1 (.healthy 1 0)).1 = true ∧ (0:Nat) < 1
    ∧ (∃ stats summ,
        process_claims 1 (.healthy 1 0) (some ()) 0 0 0 1 none none
          [⟨⟨1, "a", "k"⟩, ⟨.ok 0, none, .sendError "boom"⟩⟩] 1 = some (stats, summ)
        ∧ stats.processed
            = [(⟨⟨1, "a", "k"⟩, ⟨.ok 0, none, .sendError "boom"⟩⟩ :
                Wallet × WalletEnv)].length) :=
  ⟨rfl, by decide,
    (pass_abort_iff 1 (.healthy 1 0) (some ()) 0 0 0 1 none none
      [⟨⟨1, "a", "k"⟩, ⟨.ok 0, none, .sendError "boom"⟩⟩] 1).2 rfl rfl (by decide)⟩

/-- C8 (code bug): a pass that ends with zero processed accounts — an empty
store, or cancellation before the first account — reaches the `finally`
block, but the summary emission divides the success counter by the processed
counter (`ZeroDivisionError`), so no full summary is emitted, contradicting
the claim that every termination path emits one. -/
theorem empty_run_summary_missing :
    process_claims 421614 (.healthy 421614 1000) (some ()) 100000 100000000 421614 500
        none none [] 1 = some (⟨0, 0, 0⟩, none)
    ∧ process_claims 421614 (.healthy 421614 1000) (some ()) 100000 100000000 421614 500
        none (some 0) [⟨⟨1, "0xA", "key1"⟩, ⟨.ok 0, none, .timeout "0xhash"⟩⟩] 1
      = some (⟨0, 0, 0⟩, none)
    ∧ final_summary ⟨0, 0, 0⟩ 1 = none := by
  exact ⟨rfl, rfl, rfl⟩

/-- C10: a maximum-accounts value of 0 is falsy in the ceiling check, so the
ceiling never fires and every account in the store is processed, whereas any
positive `m` stops the pass after `min m (store size)` accounts. -/
theorem max_wallets_zero_unlimited (exp blk gl gp cid bs m : Nat) (elapsed : ℚ)
    (wallets : List (Wallet × WalletEnv)) (hbs : 0 < bs) :
    (∀ p, stopAtMax (some 0) p = false)
    ∧ (∃ stats summ,
        process_claims exp (.healthy exp blk) (some ()) gl gp cid bs (some 0) none
            wallets elapsed = some (stats, summ)
        ∧ stats.processed = wallets.length)
    ∧ (0 < m →
        ∃ stats summ,
          process_claims exp (.healthy exp blk) (some ()) gl gp cid bs (some m) none
              wallets elapsed = some (stats, summ)
          ∧ stats.processed = min m wallets.length) := by
  refine ⟨fun p => rfl, ?_, ?_⟩
  · refine ⟨_, _, process_claims_healthy exp exp blk gl gp cid bs (some 0) none
      wallets elapsed, ?_⟩
    have h1 := processBatches_nostop (some ()) gl gp cid (some 0) (fun p => rfl)
      (get_wallet_batches bs wallets) ⟨0, 0, 0⟩
    rw [h1, get_wallet_batches_sum bs hbs wallets]
    show 0 + wallets.length = wallets.length
    omega
  · intro hm
    refine ⟨_, _, process_claims_healthy exp exp blk gl gp cid bs (some m) none
      wallets elapsed, ?_⟩
    have h1 := processBatches_ceiling (some ()) gl gp cid m hm
      (get_wallet_batches bs wallets) ⟨0, 0, 0⟩ (Nat.zero_le m)
    rw [h1, get_wallet_batches_sum bs hbs wallets]
    show min m (0 + wallets.length) = min m wallets.length
    omega

/-- C10 witness: with 3 accounts and page size 2, maximum-count 0 processes
all 3 accounts while maximum-count 2 stops after 2. -/
theorem max_wallets_zero_unlimited_witness :
    (0:Nat) < 2
    ∧ (∃ stats summ,
        process_claims 1 (.healthy 1 0) (some ()) 0 0 0 2 (some 0) none
          [⟨⟨1, "a", "k"⟩, ⟨.ok 0, none, .timeout "h"⟩⟩,
           ⟨⟨2, "b", "k"⟩, ⟨.ok 0, none, .timeout "h"⟩⟩,
           ⟨⟨3, "c", "k"⟩, ⟨.ok 0, none, .timeout "h"⟩⟩] 1 = some (stats, summ)
        ∧ stats.processed
            = [(⟨⟨1, "a", "k"⟩, ⟨.ok 0, none, .timeout "h"⟩⟩ : Wallet × WalletEnv),
               ⟨⟨2, "b", "k"⟩, ⟨.ok 0, none, .timeout "h"⟩⟩,
               ⟨⟨3, "c", "k"⟩, ⟨.ok 0, none, .timeout "h"⟩⟩].length)
    ∧ (∃ stats summ,
        process_claims 1 (.healthy 1 0) (some ()) 0 0 0 2 (some 2) none
          [⟨⟨1, "a", "k"⟩, ⟨.ok 0, none, .timeout "h"⟩⟩,
           ⟨⟨2, "b", "k"⟩, ⟨.ok 0, none, .timeout "h"⟩⟩,
           ⟨⟨3, "c", "k"⟩, ⟨.ok 0, none, .timeout "h"⟩⟩] 1 = some (stats, summ)
        ∧ stats.processed
            = min 2 [(⟨⟨1, "a", "k"⟩, ⟨.ok 0, none, .timeout "h"⟩⟩ : Wallet × WalletEnv),
               ⟨⟨2, "b", "k"⟩, ⟨.ok 0, none, .timeout "h"⟩⟩,
               ⟨⟨3, "c", "k"⟩, ⟨.ok 0, none, .timeout "h"⟩⟩].length) :=
  ⟨by decide,
   (max_wallets_zero_unlimited 1 0 0 0 0 2 7 1
      [⟨⟨1, "a", "k"⟩, ⟨.ok 0, none, .timeout "h"⟩⟩,
       ⟨⟨2, "b", "k"⟩, ⟨.ok 0, none, .timeout "h"⟩⟩,
       ⟨⟨3, "c", "k"⟩, ⟨.ok 0, none, .timeout "h"⟩⟩] (by decide)).2.1,
   (max_wallets_zero_unlimited 1 0 0 0 0 2 2 1
      [⟨⟨1, "a", "k"⟩, ⟨.ok 0, none, .timeout "h"⟩⟩,
       ⟨⟨2, "b", "k"⟩, ⟨.ok 0, none, .timeout "h"⟩⟩,
       ⟨⟨3, "c", "k"⟩, ⟨.ok 0, none, .timeout "h"⟩⟩] (by decide)).2.2 (by decide)⟩

end Maitrix
